import Mathlib

/-!
Verification of the record-reconciliation core of the DemoDigi repository
(src/Utilities/preprocessing.py) against its natural-language specification.

The Python source is shallowly embedded: timestamps are integers (seconds in
UTC, as produced by datetime.strptime with a fixed format and UTC tzinfo),
Python dicts are insertion-ordered association lists, and a run that would
raise an uncaught Python exception is an Except.error value.  Python string
operations used by the source (split on a single space, lower, drop of the
final character, decimal formatting) are re-implemented structurally over the
character list of the string so that closed instances evaluate in the kernel.
-/

namespace DemoDigi

/-- Python s.split(' ') on the character list: split on every single space,
keeping empty tokens, as Python does for an explicit separator. -/
def pySplitSpaceAux : List Char → List Char → List (List Char)
  | [], cur => [cur.reverse]
  | c :: cs, cur => if c = ' ' then cur.reverse :: pySplitSpaceAux cs [] else pySplitSpaceAux cs (c :: cur)

/-- Python s.split(' '). -/
def pySplitSpace (s : String) : List String :=
  (pySplitSpaceAux s.data []).map (fun cs => String.mk cs)

/-- Python s[:-1] : drop the final character (empty string stays empty). -/
def pyDropLast (s : String) : String := String.mk s.data.dropLast

/-- Python s.lower() (the identifiers in this repository are ASCII). -/
def pyToLower (s : String) : String := String.mk (s.data.map Char.toLower)

/-- Decimal digits of a natural number, with fuel for structural recursion.
The fuel n+1 always suffices since a number has at most n+1 digits. -/
def natCharsAux : Nat → Nat → List Char
  | 0, _ => []
  | fuel + 1, n =>
    if n < 10 then [Char.ofNat (48 + n)]
    else natCharsAux fuel (n / 10) ++ [Char.ofNat (48 + n % 10)]

/-- Decimal rendering of a natural number, as Python str formatting does. -/
def natStr (n : Nat) : String := String.mk (natCharsAux (n + 1) n)

/-- The composite activity name of preprocessing.py lines 332, 431 and 753:
the Python format string that joins skill and session as skill_Qsession. -/
def actName (skill : String) (session : Nat) : String :=
  skill ++ "_Q" ++ natStr session

/-- Lookup in an insertion-ordered association list (a Python dict). -/
def alookup {K V : Type} [DecidableEq K] : List (K × V) → K → Option V
  | [], _ => none
  | (k', v') :: rest, k => if k = k' then some v' else alookup rest k

/-- Python dict assignment d[k] = v : replace the value in place when the key
is present, append the new binding at the end otherwise. -/
def aset {K V : Type} [DecidableEq K] : List (K × V) → K → V → List (K × V)
  | [], k, v => [(k, v)]
  | (k', v') :: rest, k, v =>
    if k = k' then (k', v) :: rest else (k', v') :: aset rest k v

/-- One top-level element of the Datashop XML log.  A context carries the
user id and timestamp from its meta block; its payload is the text of the
nested dataset/level/level/problem/name path, or none when that nested chain
is missing (the IndexError branch of preprocessing.py line 294). -/
inductive Event where
  | context (user : String) (time : Int) (label : Option String)
  | tool
  | tutor (action_eval : String)
deriving DecidableEq

/-- The uncaught Python exceptions that import_datashop can raise. -/
inductive PyErr where
  | indexError
  | keyError
  | nameError
  | typeError
deriving DecidableEq

/-- The answers dict of import_datashop: user id, then problem name, then
timestamp, each level an insertion-ordered Python dict; the innermost value
is the list of boolean outcomes appended by tutor messages. -/
abbrev AnswersMap := List (String × List (String × List (Int × List Bool)))

/-- The loop state of the first pass of import_datashop: the bindings of the
loop variables anon_id, time, problem_name and is_correct (none while the
Python name is still unbound), the wait_for_next_context_message flag, the
answers dict, and the messages printed so far. -/
structure PState where
  anon_id : Option String
  time : Option Int
  problem_name : Option String
  is_correct : Option Bool
  waiting : Bool
  answers : AnswersMap
  logs : List String

/-- The state at the top of the loop of preprocessing.py line 285. -/
def initState : PState :=
  { anon_id := none, time := none, problem_name := none, is_correct := none,
    waiting := false, answers := [], logs := [] }

/-- One iteration of the first pass of import_datashop (lines 285-317).
A context element always rebinds anon_id and time; a malformed problem path
sets the waiting flag and continues; a well-formed one takes the second
space-separated token of the label, drops its final character (IndexError
when the label has no second token), clears the flag and registers an empty
outcome list for the (user, problem, time) triple, resetting any previous
list at exactly that triple as the dict assignment of line 305 does.
A tutor message under the waiting flag matches no branch and is skipped;
otherwise CORRECT and INCORRECT bind is_correct, any other value prints the
notice and leaves the previous binding of is_correct in place, and the
outcome is appended to the list of the current triple (NameError when a
needed loop variable was never bound, KeyError when the triple is absent). -/
def step1 (s : PState) : Event → Except PyErr PState
  | .context u t lab =>
    let s1 := { s with anon_id := some u, time := some t }
    match lab with
    | none => .ok { s1 with waiting := true }
    | some l =>
      match pySplitSpace l with
      | _ :: t1 :: _ =>
        let pn := pyDropLast t1
        let um := (alookup s.answers u).getD []
        let pm := (alookup um pn).getD []
        .ok { s1 with
              waiting := false
              problem_name := some pn
              answers := aset s.answers u (aset um pn (aset pm t [])) }
      | _ => .error .indexError
  | .tool => .ok s
  | .tutor ev =>
    if s.waiting then .ok s
    else
      let vlog : Option Bool × List String :=
        if ev = "CORRECT" then (some true, s.logs)
        else if ev = "INCORRECT" then (some false, s.logs)
        else (s.is_correct, s.logs ++ ["Cannot figure out if action was completed correctly or not"])
      match s.anon_id, s.problem_name, s.time with
      | some u, some pn, some t =>
        match alookup s.answers u with
        | none => .error .keyError
        | some um =>
          match alookup um pn with
          | none => .error .keyError
          | some pm =>
            match alookup pm t with
            | none => .error .keyError
            | some lst =>
              match vlog.1 with
              | none => .error .nameError
              | some v =>
                .ok { s with
                      is_correct := some v
                      logs := vlog.2
                      answers := aset s.answers u (aset um pn (aset pm t (lst ++ [v]))) }
      | _, _, _ => .error .nameError

/-- The first pass of import_datashop, folded over the XML elements. -/
def phase1Go : List Event → PState → Except PyErr PState
  | [], s => .ok s
  | e :: es, s =>
    match step1 s e with
    | .error err => .error err
    | .ok s' => phase1Go es s'

/-- The value of self.n_sessions: either a Python int or the numpy nan that
learning_module.init (line 214) leaves in place when no count is supplied. -/
inductive PyVal where
  | int (n : Nat)
  | nan
deriving DecidableEq

/-- The n_sessions default of learning_module.init. -/
def defaultNSessions : PyVal := PyVal.nan

/-- np.isfinite on the values n_sessions can hold (line 215). -/
def isFiniteP : PyVal → Bool
  | .int _ => true
  | .nan => false

/-- Evaluating range(self.n_sessions) (line 331): a TypeError as soon as the
argument is the nan default rather than an int. -/
def rangeOf : PyVal → Except PyErr (List Nat)
  | .int n => .ok (List.range n)
  | .nan => .error .typeError

/-- The inner session loop of lines 331-334: every matching session rebinds
matched_skill to the mixed-case name (there is no break, the last match
wins); the extracted problem name is compared by exact equality with the
lowercased pattern. -/
def matchSessions (pn : String) (skill : String) : String → List Nat → String
  | acc, [] => acc
  | acc, sess :: rest =>
    matchSessions pn skill
      (if pn = pyToLower (actName skill (sess + 1)) then actName skill (sess + 1) else acc)
      rest

/-- The skill loop of lines 330-334, forcing range(self.n_sessions) once per
skill as the Python for statement does. -/
def matchedSkillE (nsess : PyVal) (pn : String) : List String → String → Except PyErr String
  | [], acc => .ok acc
  | skill :: rest, acc =>
    match rangeOf nsess with
    | .error e => .error e
    | .ok rng => matchedSkillE nsess pn rest (matchSessions pn skill acc rng)

/-- Insertion of one (time, outcomes) item into an ascending run, used to
model Python sorted on the dict items of line 338 (keys are distinct). -/
def insertByKey (p : Int × List Bool) : List (Int × List Bool) → List (Int × List Bool)
  | [] => [p]
  | q :: rest => if p.1 ≤ q.1 then p :: q :: rest else q :: insertByKey p rest

/-- Python sorted(times.items()): the items in ascending key order. -/
def sortByKey (l : List (Int × List Bool)) : List (Int × List Bool) :=
  l.foldr insertByKey []

/-- One row of the attempt table self.xml_data built at line 345. -/
structure Rec4 where
  student_id : String
  date : Int
  activity : String
  correct : Bool
deriving DecidableEq

/-- The column labels of the DataFrame constructed at line 345. -/
def xmlDataColumns : List String :=
  ["Student ID", "Date Created", "Activity Title", "Correct?"]

/-- The problem loop of lines 326-343 for one user: problems whose matched
skill is the empty string are dropped, the rest emit one row per recorded
outcome, times in ascending order. -/
def problemsGo (skills : List String) (nsess : PyVal) (uid : String) :
    List (String × List (Int × List Bool)) → List Rec4 → Except PyErr (List Rec4)
  | [], recs => .ok recs
  | (pn, times) :: rest, recs =>
    match matchedSkillE nsess pn skills "" with
    | .error e => .error e
    | .ok ms =>
      if ms = "" then problemsGo skills nsess uid rest recs
      else problemsGo skills nsess uid rest
        (recs ++ (sortByKey times).flatMap (fun p => p.2.map (fun b => ⟨uid, p.1, ms, b⟩)))

/-- The second pass of import_datashop (lines 319-345), over the users of
the answers dict in insertion order. -/
def phase2 (skills : List String) (nsess : PyVal) :
    AnswersMap → List Rec4 → Except PyErr (List Rec4)
  | [], recs => .ok recs
  | (uid, probs) :: rest, recs =>
    match problemsGo skills nsess uid probs recs with
    | .error e => .error e
    | .ok recs' => phase2 skills nsess rest recs'

/-- import_datashop (lines 262-347): parse the XML elements, then tabulate;
the result is the attempt table together with the printed messages, or the
uncaught exception. -/
def importDatashop (skills : List String) (nsess : PyVal) (events : List Event) :
    Except PyErr (List Rec4 × List String) :=
  match phase1Go events initState with
  | .error e => .error e
  | .ok s =>
    match phase2 skills nsess s.answers [] with
    | .error e => .error e
    | .ok recs => .ok (recs, s.logs)

/-!
Identity Reconciler: infer_mapping_pseudonym_ID (preprocessing.py lines
349-385).  The tables xml_data and raw_data are lists of
(Student ID, Date Created) pairs.  Python iterates over the two sets of ids
in an order the language does not fix; we fix the order of first occurrence
with duplicates removed, one of the possible set orders.
-/

/-- The list of timestamps of one canonical ID in the xml table
(line 354-355): a list, duplicates kept. -/
def idTimesOf (xml : List (String × Int)) (id : String) : List Int :=
  (xml.filter (fun p => p.1 = id)).map Prod.snd

/-- The set of timestamps of one pseudonym in the raw table (line 358-359). -/
def pseudoTimesOf (raw : List (String × Int)) (b : String) : List Int :=
  ((raw.filter (fun p => p.1 = b)).map Prod.snd).dedup

/-- The acceptance test of lines 361-372: the fraction of the canonical
timestamps that have some raw timestamp within the strict 60 second window
strictly exceeds 0.9.  The Python float comparison
times_matched / total_times greater than 0.9 is modelled as the exact
rational comparison 9 * total less than 10 * matched. -/
def matchOK (idTimes pseudoTimes : List Int) : Bool :=
  9 * idTimes.length <
    10 * (idTimes.filter (fun t => pseudoTimes.any (fun r => (t - r).natAbs < 60))).length

/-- The ID loop of lines 353-374: for each canonical ID, every pseudonym is
probed in order (the mapping is not consulted, so already mapped pseudonyms
are probed again); the first qualifying pseudonym is written into the
mapping, overwriting any entry it already had, and the inner search breaks. -/
def inferGo (xml raw : List (String × Int)) (pseudos : List String) :
    List String → List (String × String) → List (String × String)
  | [], m => m
  | id :: rest, m =>
    inferGo xml raw pseudos rest
      (match pseudos.find? (fun b => matchOK (idTimesOf xml id) (pseudoTimesOf raw b)) with
       | some b => aset m b id
       | none => m)

/-- infer_mapping_pseudonym_ID: the final pseudonym to ID mapping. -/
def inferMapping (xml raw : List (String × Int)) : List (String × String) :=
  inferGo xml raw ((raw.map Prod.fst).dedup) ((xml.map Prod.fst).dedup) []

/-- Modelled from the spec: the Identity Reconciler as the specification
words it, where for each canonical ID the candidate pseudonyms searched are
exactly those not yet mapped.  Used only to compare against inferMapping,
which embeds the source. -/
def inferGoSpec (xml raw : List (String × Int)) (pseudos : List String) :
    List String → List (String × String) → List (String × String)
  | [], m => m
  | id :: rest, m =>
    inferGoSpec xml raw pseudos rest
      (match (pseudos.filter (fun b => (alookup m b).isNone)).find?
               (fun b => matchOK (idTimesOf xml id) (pseudoTimesOf raw b)) with
       | some b => aset m b id
       | none => m)

/-- Modelled from the spec: the mapping with candidates restricted to
pseudonyms not yet mapped. -/
def inferMappingSpec (xml raw : List (String × Int)) : List (String × String) :=
  inferGoSpec xml raw ((raw.map Prod.fst).dedup) ((xml.map Prod.fst).dedup) []

/-!
Outcome Aggregator: read_participant_results (preprocessing.py lines
411-453) restricted to the result tables and the scalar first and last
answer dates.  Rows of full_results carry the Attempt Number column of the
raw analytics table.
-/

/-- One row of self.full_results. -/
structure Row where
  student_id : String
  date : Int
  activity : String
  attempt : Nat
  correct : Bool
deriving DecidableEq

/-- datetime.datetime(1900, 1, 1, tzinfo utc) of line 426, as a Unix
timestamp in seconds. -/
def d1900 : Int := -2208988800

/-- datetime.datetime(2200, 1, 1, tzinfo utc) of line 427, as a Unix
timestamp in seconds. -/
def d2200 : Int := 7258118400

/-- The per participant result of read_participant_results: the three cell
tables flattened into one list of (skill, session, answered, correct first
try, first answer date) entries in loop order, the two scalar dates, and the
populated cell count n_answers. -/
structure PartRes where
  cells : List (String × Nat × Bool × Bool × Option Int)
  first_answer_date : Int
  last_answer_date : Int
  n_answers : Nat
deriving DecidableEq

/-- read_participant_results (lines 420-448): for each skill and session the
rows of the participant with the matching activity name are filtered to
attempt number 1; an empty selection is the IndexError branch (unanswered
cell), otherwise the first row in table order gives the cell, and the scalar
dates are updated exactly as lines 438-441 do, starting from the 1900 and
2200 sentinels of lines 426-427. -/
def readPart (skills : List String) (nsess : Nat) (rows : List Row) (pid : String) : PartRes :=
  let cp := rows.filter (fun r => r.student_id = pid)
  skills.foldl (fun st skill =>
    (List.range nsess).foldl (fun st i =>
      let session := i + 1
      let ft := (cp.filter (fun r => r.activity = actName skill session)).filter
        (fun r => r.attempt = 1)
      match ft with
      | [] => { st with cells := st.cells ++ [(skill, session, false, false, none)] }
      | r :: _ =>
        { st with
          cells := st.cells ++ [(skill, session, true, r.correct, some r.date)]
          first_answer_date := if r.date < st.first_answer_date then r.date else st.first_answer_date
          last_answer_date := if r.date > st.last_answer_date then r.date else st.last_answer_date
          n_answers := st.n_answers + 1 }) st)
    { cells := [], first_answer_date := d1900, last_answer_date := d2200, n_answers := 0 }

/-!
Cumulative answers by date (preprocessing.py lines 536-550): the participant
answer date tables are lists of optional dates, one entry per (session,
skill) cell; a populated cell holds some date.
-/

/-- All dates of populated cells across the group, in table order
(the non null values of line 539-540). -/
def populatedDates (ps : List (List (Option Int))) : List Int :=
  ps.flatMap (fun p => p.filterMap id)

/-- The accumulation loop of lines 545-549: running totals over the
per date counts. -/
def accumulate : Nat → List (Int × Nat) → List (Int × Nat)
  | _, [] => []
  | acc, (d, c) :: rest => (d, acc + c) :: accumulate (acc + c) rest

/-- cumulative_answers_by_date: count the populated dates, then accumulate
over the distinct dates in ascending order (Python sorted over the dict
keys). -/
def cumulativeByDate (ps : List (List (Option Int))) : List (Int × Nat) :=
  accumulate 0
    ((List.insertionSort (fun a b => a ≤ b) (populatedDates ps).dedup).map
      (fun d => (d, (populatedDates ps).count d)))

/-!
Session inference: infer_n_sessions_from_full_results (preprocessing.py
lines 740-762), over the Activity Title column of full_results.
-/

/-- The while loop of lines 753-754 for one skill: starting from k, step to
k+1 as long as the activity name for session k+1 appears in the column.  The
fuel only bounds the recursion; it never runs out because each successful
probe needs one more distinct member of the column, so at most length many
probes can succeed. -/
def probeAux (skill : String) (acts : List String) : Nat → Nat → Nat
  | 0, k => k
  | fuel + 1, k =>
    if actName skill (k + 1) ∈ acts then probeAux skill acts fuel (k + 1) else k

/-- The per skill session count registered by the while loop, from 0. -/
def probe (skill : String) (acts : List String) : Nat :=
  probeAux skill acts (acts.length + 1) 0

/-- infer_n_sessions_from_full_results: the maximum per skill count
(line 760).  Python max over the values raises on an empty dict; for a
nonempty skill list this fold equals that max since every count is a Nat. -/
def inferNSessions (skills : List String) (acts : List String) : Nat :=
  (skills.map (fun sk => probe sk acts)).foldl max 0

/-! ### Helper lemmas about the dict operations -/

lemma alookup_aset {K V : Type} [DecidableEq K] (m : List (K × V)) (k : K) (v : V) (k' : K) :
    alookup (aset m k v) k' = if k' = k then some v else alookup m k' := by
  induction m with
  | nil =>
    by_cases h : k' = k <;> simp [aset, alookup, h]
  | cons p rest ih =>
    obtain ⟨k0, v0⟩ := p
    by_cases h : k = k0
    · subst h
      by_cases h' : k' = k <;> simp [aset, alookup, h']
    · by_cases h' : k' = k0
      · subst h'
        have : ¬ k' = k := fun hc => h hc.symm
        simp [aset, alookup, h, this]
      · simp [aset, alookup, h, h', ih]

lemma aset_ne_nil {K V : Type} [DecidableEq K] (m : List (K × V)) (k : K) (v : V) :
    aset m k v ≠ [] := by
  cases m with
  | nil => simp [aset]
  | cons p rest =>
    obtain ⟨k0, v0⟩ := p
    by_cases h : k = k0 <;> simp [aset, h]

lemma mem_aset {K V : Type} [DecidableEq K] {m : List (K × V)} {k : K} {v : V} {p : K × V}
    (hp : p ∈ aset m k v) : p.2 = v ∨ p ∈ m := by
  induction m with
  | nil =>
    simp [aset] at hp
    subst hp
    left
    rfl
  | cons q rest ih =>
    obtain ⟨k0, v0⟩ := q
    by_cases h : k = k0
    · subst h
      simp [aset] at hp
      rcases hp with hp | hp
      · subst hp; left; rfl
      · right; exact List.mem_cons_of_mem _ hp
    · simp [aset, h] at hp
      rcases hp with hp | hp
      · subst hp; right; exact List.mem_cons_self _ _
      · rcases ih hp with h2 | h2
        · left; exact h2
        · right; exact List.mem_cons_of_mem _ h2

/-! ### The first pass preserves nonemptiness of the per user problem dicts -/

lemma step1_vals_ne_nil {s s1 : PState} {e : Event} (h : step1 s e = .ok s1)
    (hs : ∀ p ∈ s.answers, p.2 ≠ []) : ∀ p ∈ s1.answers, p.2 ≠ [] := by
  cases e with
  | context u t lab =>
    cases lab with
    | none =>
      simp only [step1] at h
      cases h
      exact hs
    | some l =>
      simp only [step1] at h
      rcases hsp : pySplitSpace l with _ | ⟨a, _ | ⟨b, rest⟩⟩ <;> rw [hsp] at h
      · cases h
      · cases h
      · cases h
        intro p hp
        rcases mem_aset hp with h2 | h2
        · rw [h2]; exact aset_ne_nil _ _ _
        · exact hs p h2
  | tool =>
    simp only [step1] at h
    cases h
    exact hs
  | tutor ev =>
    simp only [step1] at h
    split at h
    · cases h
      exact hs
    · split at h
      · split at h
        · cases h
        · split at h
          · cases h
          · split at h
            · cases h
            · split at h
              · cases h
              · cases h
                intro p hp
                rcases mem_aset hp with hm | hm
                · rw [hm]; exact aset_ne_nil _ _ _
                · exact hs p hm
      · cases h

lemma phase1Go_vals_ne_nil : ∀ (events : List Event) (s s' : PState),
    phase1Go events s = .ok s' → (∀ p ∈ s.answers, p.2 ≠ []) → ∀ p ∈ s'.answers, p.2 ≠ [] := by
  intro events
  induction events with
  | nil =>
    intro s s' h hs
    simp only [phase1Go] at h
    cases h
    exact hs
  | cons e es ih =>
    intro s s' h hs
    simp only [phase1Go] at h
    rcases hstep : step1 s e with err | s1 <;> rw [hstep] at h
    · cases h
    · exact ih s1 s' h (step1_vals_ne_nil hstep hs)

/-! ### Tutor messages are skipped while the waiting flag is set -/

lemma step1_tutor_waiting {s : PState} (hw : s.waiting = true) (a : String) :
    step1 s (.tutor a) = .ok s := by
  simp [step1, hw]

lemma phase1Go_skip_tutors (ts : List String) (rest : List Event) (s : PState)
    (hw : s.waiting = true) :
    phase1Go (ts.map Event.tutor ++ rest) s = phase1Go rest s := by
  induction ts with
  | nil => rfl
  | cons a ts ih =>
    simp only [List.map, List.cons_append, phase1Go, step1_tutor_waiting hw a]
    exact ih

/-! ### The accumulation loop: running totals are monotone and sum up -/

lemma accumulate_chain (ps : List (Int × Nat)) :
    ∀ a, List.Chain' (fun m n => m ≤ n) ((accumulate a ps).map Prod.snd) := by
  induction ps with
  | nil => intro a; simp [accumulate]
  | cons p rest ih =>
    intro a
    obtain ⟨d, c⟩ := p
    simp only [accumulate, List.map]
    rw [List.chain'_cons']
    refine ⟨?_, ih (a + c)⟩
    intro y hy
    cases rest with
    | nil => simp [accumulate] at hy
    | cons q qs =>
      obtain ⟨d', c'⟩ := q
      simp only [accumulate, List.map, List.head?, Option.mem_def, Option.some.injEq] at hy
      rw [← hy]
      exact Nat.le_add_right _ _

lemma accumulate_getLastD (ps : List (Int × Nat)) :
    ∀ a, ((accumulate a ps).map Prod.snd).getLastD a = a + (ps.map Prod.snd).sum := by
  induction ps with
  | nil => intro a; simp [accumulate]
  | cons p rest ih =>
    intro a
    obtain ⟨d, c⟩ := p
    simp only [accumulate, List.map, List.getLastD_cons, List.sum_cons]
    rw [ih (a + c)]
    omega

/-! ### The session probe only ever counts contiguously present names -/

lemma probeAux_all (skill : String) (acts : List String) :
    ∀ (fuel k : Nat), (∀ j, 1 ≤ j → j ≤ k → actName skill j ∈ acts) →
    ∀ j, 1 ≤ j → j ≤ probeAux skill acts fuel k → actName skill j ∈ acts := by
  intro fuel
  induction fuel with
  | zero =>
    intro k hk j h1 h2
    exact hk j h1 (by simpa [probeAux] using h2)
  | succ fuel ih =>
    intro k hk j h1 h2
    by_cases hmem : actName skill (k + 1) ∈ acts
    · refine ih (k + 1) ?_ j h1 ?_
      · intro j' hj1 hj2
        rcases Nat.lt_or_ge j' (k + 1) with hlt | hge
        · exact hk j' hj1 (Nat.lt_succ_iff.mp hlt)
        · have : j' = k + 1 := Nat.le_antisymm hj2 hge
          rw [this]
          exact hmem
      · simpa [probeAux, hmem] using h2
    · have heq : probeAux skill acts (fuel + 1) k = k := by simp [probeAux, hmem]
      exact hk j h1 (heq ▸ h2)

/-! ### Soundness and injectivity of the inferred identity mapping -/

lemma inferGo_sound (xml raw : List (String × Int)) (pseudos : List String) :
    ∀ (ids : List String) (m : List (String × String)),
    (∀ b a, alookup m b = some a →
      pseudos.find? (fun b' => matchOK (idTimesOf xml a) (pseudoTimesOf raw b')) = some b) →
    ∀ b a, alookup (inferGo xml raw pseudos ids m) b = some a →
      pseudos.find? (fun b' => matchOK (idTimesOf xml a) (pseudoTimesOf raw b')) = some b := by
  intro ids
  induction ids with
  | nil =>
    intro m hinv b a h
    exact hinv b a (by simpa [inferGo] using h)
  | cons id rest ih =>
    intro m hinv b a h
    simp only [inferGo] at h
    rcases hf : pseudos.find? (fun b' => matchOK (idTimesOf xml id) (pseudoTimesOf raw b'))
        with _ | b0 <;> rw [hf] at h
    · exact ih m hinv b a h
    · refine ih (aset m b0 id) ?_ b a h
      intro b1 a1 hba
      rw [alookup_aset] at hba
      by_cases hb : b1 = b0
      · rw [if_pos hb] at hba
        cases hba
        rw [hb]
        exact hf
      · rw [if_neg hb] at hba
        exact hinv b1 a1 hba

lemma inferGo_inj (xml raw : List (String × Int)) (pseudos : List String) :
    ∀ (ids : List String) (m : List (String × String)), ids.Nodup →
    (∀ b a, alookup m b = some a → a ∉ ids) →
    (∀ b1 b2 a, alookup m b1 = some a → alookup m b2 = some a → b1 = b2) →
    ∀ b1 b2 a, alookup (inferGo xml raw pseudos ids m) b1 = some a →
      alookup (inferGo xml raw pseudos ids m) b2 = some a → b1 = b2 := by
  intro ids
  induction ids with
  | nil =>
    intro m _ _ hinj b1 b2 a h1 h2
    exact hinj b1 b2 a (by simpa [inferGo] using h1) (by simpa [inferGo] using h2)
  | cons id rest ih =>
    intro m hnd hdisj hinj b1 b2 a h1 h2
    have hnd' := List.nodup_cons.mp hnd
    simp only [inferGo] at h1 h2
    rcases hf : pseudos.find? (fun b' => matchOK (idTimesOf xml id) (pseudoTimesOf raw b'))
        with _ | b0 <;> rw [hf] at h1 h2
    · refine ih m hnd'.2 ?_ hinj b1 b2 a h1 h2
      intro b a' hba hmem
      exact hdisj b a' hba (List.mem_cons_of_mem _ hmem)
    · refine ih (aset m b0 id) hnd'.2 ?_ ?_ b1 b2 a h1 h2
      · intro b a' hba hmem
        rw [alookup_aset] at hba
        by_cases hb : b = b0
        · rw [if_pos hb] at hba
          cases hba
          exact hnd'.1 hmem
        · rw [if_neg hb] at hba
          exact hdisj b a' hba (List.mem_cons_of_mem _ hmem)
      · intro c1 c2 a' k1 k2
        rw [alookup_aset] at k1 k2
        by_cases hc1 : c1 = b0 <;> by_cases hc2 : c2 = b0
        · rw [hc1, hc2]
        · rw [if_pos hc1] at k1
          rw [if_neg hc2] at k2
          cases k1
          exact absurd (List.mem_cons_self id rest) (hdisj c2 id k2)
        · rw [if_neg hc1] at k1
          rw [if_pos hc2] at k2
          cases k2
          exact absurd (List.mem_cons_self id rest) (hdisj c1 id k1)
        · rw [if_neg hc1] at k1
          rw [if_neg hc2] at k2
          exact hinj c1 c2 a' k1 k2

/-! ### The claims -/

/-- C1, counterexample: on the exact scenario of the claim — skill Backup,
one session, subject u1, a well-formed context at 2024-01-01T10:00:00Z
(Unix time 1704103200) naming problem Module Backup_Q1. followed by one
tutor message with outcome CORRECT — import_datashop produces an empty
attempt table, not one record: the extracted name Backup_Q1 is compared by
exact equality with the lowercased pattern backup_q1 and fails, so the
matching is not case-insensitive. -/
theorem claim_C1_counterexample :
    importDatashop ["Backup"] (PyVal.int 1)
      [Event.context "u1" 1704103200 (some "Module Backup_Q1."),
       Event.tutor "CORRECT"] = .ok ([], []) := by
  rfl

/-- C1, amended: when the problem token of the label is already lowercase —
label Module backup_q1. — the same log produces an attempt table with
exactly one record (u1, activity Backup_Q1, 2024-01-01T10:00:00Z,
correct true); the extracted name (second whitespace token of the label
with its final character dropped) is matched by exact equality against the
lowercased skill_Qsession pattern, so only already-lowercase names match. -/
theorem claim_C1 :
    importDatashop ["Backup"] (PyVal.int 1)
      [Event.context "u1" 1704103200 (some "Module backup_q1."),
       Event.tutor "CORRECT"] =
      .ok ([⟨"u1", 1704103200, "Backup_Q1", true⟩], []) := by
  rfl

/-- C2: the aggregated scalar dates never move off their sentinels.  For a
subject with one populated cell dated 2024-01-01 (Unix time 1704067200) the
produced first_answer_date is the 1900-01-01 sentinel and the
last_answer_date is the 2200-01-01 sentinel — not the minimum and maximum
1704067200 of the populated first-attempt timestamps — because the update
comparisons of lines 438-441 point away from the initial sentinels of lines
426-427. -/
theorem claim_C2 :
    readPart ["Backup"] 1 [⟨"u1", 1704067200, "Backup_Q1", 1, true⟩] "u1" =
      ⟨[("Backup", 1, true, true, some 1704067200)], d1900, d2200, 1⟩ ∧
    d1900 ≠ 1704067200 ∧ d2200 ≠ 1704067200 := by
  refine ⟨rfl, ?_, ?_⟩ <;> decide

/-- C3, counterexample: the candidate pseudonyms searched for a canonical ID
are not just the unmapped ones.  With canonical IDs a1 and a2 sharing the
timestamp 0 and a single pseudonym b at timestamp 10, the source searches
the already mapped b again while processing a2 and overwrites its entry,
giving b mapped to a2; restricting the candidates to pseudonyms not yet
mapped, as the claim states, gives b mapped to a1. -/
theorem claim_C3_counterexample :
    inferMapping [("a1", 0), ("a2", 0)] [("b", 10)] = [("b", "a2")] ∧
    inferMappingSpec [("a1", 0), ("a2", 0)] [("b", 10)] = [("b", "a1")] := by
  exact ⟨rfl, rfl⟩

/-- C3, amended: every entry b maps-to a of the final mapping is the first
pseudonym, in candidate order over all pseudonyms (mapped or not), whose
fraction of matched timestamps of a strictly exceeds 0.9 under the strict
60-second window; the search for a stops there.  Already mapped pseudonyms
are searched again by later canonical IDs and their entries overwritten. -/
theorem claim_C3 (xml raw : List (String × Int)) (b a : String)
    (h : alookup (inferMapping xml raw) b = some a) :
    ((raw.map Prod.fst).dedup).find?
      (fun b' => matchOK (idTimesOf xml a) (pseudoTimesOf raw b')) = some b := by
  refine inferGo_sound xml raw _ _ [] ?_ b a h
  intro b' a' h'
  simp [alookup] at h'

/-- C3, witness: on the two-timestamp scenario the mapping contains p7
maps-to alice, and the theorem yields that p7 is the first qualifying
candidate for alice. -/
theorem claim_C3_witness :
    (([("p7", (10 : Int)), ("p7", 305)].map Prod.fst).dedup).find?
      (fun b' => matchOK (idTimesOf [("alice", 0), ("alice", 300)] "alice")
        (pseudoTimesOf [("p7", 10), ("p7", 305)] b')) = some "p7" :=
  claim_C3 [("alice", 0), ("alice", 300)] [("p7", 10), ("p7", 305)] "p7" "alice" (by decide)

/-- C4: the mapping produced by infer_mapping_pseudonym_ID is an injective
partial function from pseudonyms to canonical IDs: two pseudonyms present
in the final mapping with the same canonical ID are equal.  Pseudonyms with
no qualifying match are never inserted, hence absent. -/
theorem claim_C4 (xml raw : List (String × Int)) (b1 b2 a : String)
    (h1 : alookup (inferMapping xml raw) b1 = some a)
    (h2 : alookup (inferMapping xml raw) b2 = some a) : b1 = b2 := by
  refine inferGo_inj xml raw _ _ [] (List.nodup_dedup _) ?_ ?_ b1 b2 a h1 h2
  · intro b a' h'
    simp [alookup] at h'
  · intro c1 c2 a' k1 k2
    simp [alookup] at k1

/-- C4, witness: the hypotheses are satisfiable — on the two-timestamp
scenario the mapping holds p7 maps-to alice, and injectivity applies. -/
theorem claim_C4_witness : ("p7" : String) = "p7" :=
  claim_C4 [("alice", 0), ("alice", 300)] [("p7", 10), ("p7", 305)] "p7" "p7" "alice"
    (by decide) (by decide)

/-- C5: the attempt table built by import_datashop carries no attempt-number
field at all — the DataFrame of line 345 has only the columns Student ID,
Date Created, Activity Title and Correct?, the attempt_number list declared
at line 324 is never populated, and no ordinal is ever derived — so the
Outcome Aggregator filter on Attempt Number equal to 1 cannot run on it. -/
theorem claim_C5 : "Attempt Number" ∉ xmlDataColumns := by
  decide

/-- C6: a tutor message whose action_evaluation is outside CORRECT and
INCORRECT is not fatal to that single record: the source prints the notice
but then still appends the stale binding of is_correct.  On a log with one
well-formed context, a CORRECT tutor message and then a HINT tutor message,
the attempt table gains two records, the second carrying the previous
message's outcome true, with the notice among the printed messages. -/
theorem claim_C6 :
    importDatashop ["Backup"] (PyVal.int 1)
      [Event.context "u1" 1704103200 (some "Module backup_q1."),
       Event.tutor "CORRECT", Event.tutor "HINT"] =
      .ok ([⟨"u1", 1704103200, "Backup_Q1", true⟩, ⟨"u1", 1704103200, "Backup_Q1", true⟩],
           ["Cannot figure out if action was completed correctly or not"]) := by
  rfl

/-- C7: the session count inference probes each skill contiguously upward —
every session index up to the probed count has its activity name present in
the column — and on the scenario with Password present at sessions 1 and 2
and Phishing present at 1 and 3 (gap at 2), the Phishing probe stops at 1
and the inferred module count is 2. -/
theorem claim_C7 :
    (∀ (skill : String) (acts : List String) (j : Nat),
      1 ≤ j → j ≤ probe skill acts → actName skill j ∈ acts) ∧
    probe "Phishing" ["Password_Q1", "Password_Q2", "Phishing_Q1", "Phishing_Q3"] = 1 ∧
    inferNSessions ["Password", "Phishing"]
      ["Password_Q1", "Password_Q2", "Phishing_Q1", "Phishing_Q3"] = 2 := by
  refine ⟨?_, by decide, by decide⟩
  intro skill acts j h1 h2
  refine probeAux_all skill acts (acts.length + 1) 0 ?_ j h1 h2
  intro j' hj1 hj2
  exact absurd (Nat.le_trans hj1 hj2) (Nat.not_succ_le_zero 0)

/-- C7, witness: for the scenario column the probed count of Password is 2,
so session 1 is present as the theorem requires. -/
theorem claim_C7_witness :
    actName "Password" 1 ∈ ["Password_Q1", "Password_Q2", "Phishing_Q1", "Phishing_Q3"] :=
  claim_C7.1 "Password" ["Password_Q1", "Password_Q2", "Phishing_Q1", "Phishing_Q3"] 1
    (by decide) (by decide)

/-- C8: for every group of participant answer-date tables the
cumulative-answers-by-date series has monotonically non-decreasing running
counts, and its final value equals the total number of populated (session,
skill) cells across the group. -/
theorem claim_C8 (ps : List (List (Option Int))) :
    List.Chain' (fun m n => m ≤ n) ((cumulativeByDate ps).map Prod.snd) ∧
    ((cumulativeByDate ps).map Prod.snd).getLastD 0 = (populatedDates ps).length := by
  constructor
  · exact accumulate_chain _ 0
  · rw [cumulativeByDate, accumulate_getLastD _ 0, Nat.zero_add, List.map_map]
    have hperm : List.Perm (List.insertionSort (fun a b => a ≤ b) (populatedDates ps).dedup)
        (populatedDates ps).dedup := List.perm_insertionSort _ _
    have hsum := (hperm.map (fun d => (populatedDates ps).count d)).sum_eq
    have hcomp : (Prod.snd ∘ fun d => (d, (populatedDates ps).count d)) =
        fun d => (populatedDates ps).count d := rfl
    rw [hcomp, hsum, List.sum_map_count_dedup_eq_length]

/-- C9, counterexample: a context element with a malformed nested problem
path followed by a tutor message produces no attempt record and does not
abort the run — but no notice is logged: the printed-message list of the
run is empty, while the claim requires a logged notice. -/
theorem claim_C9_counterexample :
    importDatashop ["Backup"] (PyVal.int 1)
      [Event.context "u1" 1704103200 none, Event.tutor "CORRECT"] = .ok ([], []) := by
  rfl

/-- C9, amended: a context element whose nested problem-name path is
missing structural fields causes all subsequent tutor messages up to the
next well-formed context element to be skipped silently: parsing proceeds
exactly as if the segment were absent, apart from the recorded user and
time and the raised waiting flag, so they produce no attempt records and
the run does not abort — and no notice is logged. -/
theorem claim_C9 (u : String) (t : Int) (ts : List String) (rest : List Event) (s : PState) :
    phase1Go (Event.context u t none :: (ts.map Event.tutor ++ rest)) s =
      phase1Go rest { s with anon_id := some u, time := some t, waiting := true } := by
  have h1 : step1 s (Event.context u t none) =
      .ok { s with anon_id := some u, time := some t, waiting := true } := rfl
  simp only [phase1Go, h1]
  exact phase1Go_skip_tutors ts rest _ rfl

/-- C10: import_datashop requires a supplied session count.  For any log
whose first pass succeeds with a nonempty answers dict and any nonempty
skill list, running import_datashop with the nan default of
learning_module.init fails with a TypeError when range(self.n_sessions) is
evaluated in the skill-matching step; it never defers to session
inference. -/
theorem claim_C10 (events : List Event) (skills : List String) (s : PState)
    (h1 : phase1Go events initState = .ok s) (h2 : s.answers ≠ []) (h3 : skills ≠ []) :
    importDatashop skills defaultNSessions events = .error .typeError := by
  have hval : ∀ p ∈ s.answers, p.2 ≠ [] :=
    phase1Go_vals_ne_nil events initState s h1 (by simp [initState])
  rw [importDatashop, h1]
  rcases hans : s.answers with _ | ⟨⟨u, probs⟩, rest⟩
  · exact absurd hans h2
  · have hp : probs ≠ [] := hval (u, probs) (by rw [hans]; exact List.mem_cons_self _ _)
    rcases hprobs : probs with _ | ⟨⟨pn, tm⟩, pr⟩
    · exact absurd hprobs hp
    · rcases hsk : skills with _ | ⟨sk, sks⟩
      · exact absurd hsk h3
      · simp [hans, hprobs, phase2, problemsGo, matchedSkillE, rangeOf, defaultNSessions]

/-- C10, witness: a minimal log with one well-formed context reaches the
skill-matching step and fails with the TypeError. -/
theorem claim_C10_witness :
    importDatashop ["S"] defaultNSessions [Event.context "u1" 0 (some "a b")] =
      .error .typeError :=
  claim_C10 [Event.context "u1" 0 (some "a b")] ["S"]
    { anon_id := some "u1", time := some 0, problem_name := some "", is_correct := none,
      waiting := false, answers := [("u1", [("", [(0, [])])])], logs := [] }
    rfl (by simp) (by simp)

end DemoDigi
